import Mathlib

/-!
Verification development for the Topiclyzer pipeline
(question_extractor.py, answer_generator.py, markdown_convertor.py, main.py).

The Python sources are shallowly embedded as executable Lean definitions:
pure string/record manipulation is translated directly, the remote
generative-AI calls and the PDF/markdown libraries are modelled as
explicit function parameters or `Except`-valued inputs, and Python
exceptions become `Except.error` values.
-/

/-- The backtick character (written via its code point, 96). -/
def tick : Char := Char.ofNat 96

/-- Python `str.strip()` whitespace set (ASCII): space, \t, \n, \r, \x0b, \x0c. -/
def pyIsSpace (c : Char) : Bool :=
  c = ' ' || c = '\t' || c = '\n' || c = '\r' || c = Char.ofNat 11 || c = Char.ofNat 12

/-- Drop trailing whitespace characters (helper for `pyStrip`). -/
def dropTrailingWs (l : List Char) : List Char :=
  (l.reverse.dropWhile pyIsSpace).reverse

/-- Python `str.strip()` on a character list. -/
def pyStripList (l : List Char) : List Char :=
  dropTrailingWs (l.dropWhile pyIsSpace)

/-- Python `str.strip()`. -/
def pyStrip (s : String) : String :=
  String.mk (pyStripList s.data)

/-! ### Fenced-code-block extraction (question_extractor.extract_json_from_response)

The Python code matches the regex ```` ```(?:json)?\s*(.*?)``` ```` with
`re.DOTALL` against the response, strips the captured group and feeds it to
`json.loads`; if there is no match it raises
`ValueError("No JSON code block found in the response.")`.
-/

/-- Does the list start with three backticks? -/
def startsTicks (l : List Char) : Bool :=
  decide (l.take 3 = [tick, tick, tick])

/-- Scan to the first occurrence of three consecutive backticks and return what
follows them (the regex's leftmost-match search for the opening fence). -/
def dropToTicks : List Char → Option (List Char)
  | [] => none
  | c :: cs => if startsTicks (c :: cs) then some (cs.drop 2) else dropToTicks cs

/-- Return the characters up to (excluding) the next occurrence of three
consecutive backticks, or `none` if there is none (the regex's non-greedy
capture up to the closing fence). -/
def takeToTicks : List Char → Option (List Char)
  | [] => none
  | c :: cs =>
    if startsTicks (c :: cs) then some []
    else (takeToTicks cs).map (fun l => c :: l)

/-- The optional `json` tag directly after the opening fence (`(?:json)?`). -/
def skipJsonTag (l : List Char) : List Char :=
  if l.take 4 = ['j', 's', 'o', 'n'] then l.drop 4 else l

/-- The regex match of `extract_json_from_response`: find the opening fence,
skip an optional `json` tag and whitespace (`\s*`), capture minimally up to
the closing fence, and `.strip()` the capture.  Returns `none` when the
regex does not match. -/
def extractFence (s : String) : Option String :=
  match dropToTicks s.data with
  | none => none
  | some r =>
    match takeToTicks ((skipJsonTag r).dropWhile pyIsSpace) with
    | none => none
    | some content => some (String.mk (pyStripList content))

/-! ### JSON values and `json.loads`

`json.loads` is the Python standard library's JSON parser; the pipeline
stores and reloads plain JSON documents with it.  We embed the fragment of
JSON the pipeline can exchange: objects, arrays, strings, integral numbers,
booleans and null (non-integral numeric literals are not modelled; no claim
exercises them).  Duplicate object keys keep the last value, as Python
`dict` semantics dictate.
-/

inductive JValue where
  | jstr (s : String)
  | jnum (n : Int)
  | jbool (b : Bool)
  | jnull
  | jarr (xs : List JValue)
  | jobj (fields : List (String × JValue))
  deriving Repr

/-- JSON whitespace accepted between tokens by `json.loads`. -/
def jsonWs (c : Char) : Bool :=
  c = ' ' || c = '\t' || c = '\n' || c = '\r'

/-- Insert a key/value pair into an association list with Python-`dict`
semantics: an existing key keeps its position and gets the new value. -/
def objInsert (fs : List (String × JValue)) (k : String) (v : JValue) :
    List (String × JValue) :=
  match fs with
  | [] => [(k, v)]
  | (k0, v0) :: rest =>
    if k0 = k then (k0, v) :: rest else (k0, v0) :: objInsert rest k v

/-- Python `dict.get`: look up a key in the association list. -/
def objGet (fs : List (String × JValue)) (k : String) : Option JValue :=
  match fs with
  | [] => none
  | (k0, v0) :: rest => if k0 = k then some v0 else objGet rest k

/-- Hexadecimal digit value, for `\u` escapes. -/
def hexVal (c : Char) : Option Nat :=
  if '0' ≤ c ∧ c ≤ '9' then some (c.toNat - 48)
  else if 'a' ≤ c ∧ c ≤ 'f' then some (c.toNat - 87)
  else if 'A' ≤ c ∧ c ≤ 'F' then some (c.toNat - 70)
  else none

/-- Parse the body of a JSON string literal (after the opening quote),
returning the decoded characters and the remainder after the closing quote. -/
def parseJStr (fuel : Nat) (cs : List Char) : Except String (List Char × List Char) :=
  match fuel with
  | 0 => Except.error "out of fuel"
  | fuel + 1 =>
    match cs with
    | [] => Except.error "Unterminated string"
    | '"' :: rest => Except.ok ([], rest)
    | '\\' :: rest =>
      match rest with
      | '"' :: r => (parseJStr fuel r).map (fun p => ('"' :: p.1, p.2))
      | '\\' :: r => (parseJStr fuel r).map (fun p => ('\\' :: p.1, p.2))
      | '/' :: r => (parseJStr fuel r).map (fun p => ('/' :: p.1, p.2))
      | 'b' :: r => (parseJStr fuel r).map (fun p => (Char.ofNat 8 :: p.1, p.2))
      | 'f' :: r => (parseJStr fuel r).map (fun p => (Char.ofNat 12 :: p.1, p.2))
      | 'n' :: r => (parseJStr fuel r).map (fun p => ('\n' :: p.1, p.2))
      | 'r' :: r => (parseJStr fuel r).map (fun p => ('\r' :: p.1, p.2))
      | 't' :: r => (parseJStr fuel r).map (fun p => ('\t' :: p.1, p.2))
      | 'u' :: h1 :: h2 :: h3 :: h4 :: r =>
        match hexVal h1, hexVal h2, hexVal h3, hexVal h4 with
        | some a, some b, some c, some d =>
          (parseJStr fuel r).map
            (fun p => (Char.ofNat (((a * 16 + b) * 16 + c) * 16 + d) :: p.1, p.2))
        | _, _, _, _ => Except.error "Invalid \\uXXXX escape"
      | _ => Except.error "Invalid \\escape"
    | c :: rest =>
      if c.toNat < 32 then Except.error "Invalid control character"
      else (parseJStr fuel rest).map (fun p => (c :: p.1, p.2))

/-- Parse a run of decimal digits (most significant first). -/
def parseDigits (fuel : Nat) (acc : Nat) (cs : List Char) : Nat × List Char :=
  match fuel with
  | 0 => (acc, cs)
  | fuel + 1 =>
    match cs with
    | c :: rest =>
      if '0' ≤ c ∧ c ≤ '9' then parseDigits fuel (acc * 10 + (c.toNat - 48)) rest
      else (acc, cs)
    | [] => (acc, cs)

mutual

/-- Parse one JSON value (with surrounding-whitespace skipping on entry). -/
def parseJVal (fuel : Nat) (cs : List Char) : Except String (JValue × List Char) :=
  match fuel with
  | 0 => Except.error "out of fuel"
  | fuel + 1 =>
    match cs.dropWhile jsonWs with
    | [] => Except.error "Expecting value"
    | '"' :: rest =>
      (parseJStr fuel rest).map (fun p => (JValue.jstr (String.mk p.1), p.2))
    | '[' :: rest => parseJArr fuel rest
    | c :: rest =>
      if c = 't' then
        if rest.take 3 = ['r', 'u', 'e'] then Except.ok (JValue.jbool true, rest.drop 3)
        else Except.error "Expecting value"
      else if c = 'f' then
        if rest.take 4 = ['a', 'l', 's', 'e'] then Except.ok (JValue.jbool false, rest.drop 4)
        else Except.error "Expecting value"
      else if c = 'n' then
        if rest.take 3 = ['u', 'l', 'l'] then Except.ok (JValue.jnull, rest.drop 3)
        else Except.error "Expecting value"
      else if c = Char.ofNat 123 then parseJObj fuel rest
      else if c = '-' then
        match rest with
        | d :: r =>
          if '0' ≤ d ∧ d ≤ '9' then
            match parseDigits fuel (d.toNat - 48) r with
            | (n, r2) => Except.ok (JValue.jnum (-(Int.ofNat n)), r2)
          else Except.error "Expecting value"
        | [] => Except.error "Expecting value"
      else if '0' ≤ c ∧ c ≤ '9' then
        match parseDigits fuel (c.toNat - 48) rest with
        | (n, r2) => Except.ok (JValue.jnum (Int.ofNat n), r2)
      else Except.error "Expecting value"

/-- Parse the items of a JSON array after the opening bracket. -/
def parseJArr (fuel : Nat) (cs : List Char) : Except String (JValue × List Char) :=
  match fuel with
  | 0 => Except.error "out of fuel"
  | fuel + 1 =>
    match cs.dropWhile jsonWs with
    | ']' :: rest => Except.ok (JValue.jarr [], rest)
    | other =>
      match parseJVal fuel other with
      | Except.error e => Except.error e
      | Except.ok (v, r) => parseJArrRest fuel [v] r

/-- Parse the remaining items of a JSON array (after at least one item). -/
def parseJArrRest (fuel : Nat) (acc : List JValue) (cs : List Char) :
    Except String (JValue × List Char) :=
  match fuel with
  | 0 => Except.error "out of fuel"
  | fuel + 1 =>
    match cs.dropWhile jsonWs with
    | ']' :: rest => Except.ok (JValue.jarr acc, rest)
    | ',' :: rest =>
      match parseJVal fuel rest with
      | Except.error e => Except.error e
      | Except.ok (v, r) => parseJArrRest fuel (acc ++ [v]) r
    | _ => Except.error "Expecting comma or bracket"

/-- Parse the members of a JSON object after the opening brace. -/
def parseJObj (fuel : Nat) (cs : List Char) : Except String (JValue × List Char) :=
  match fuel with
  | 0 => Except.error "out of fuel"
  | fuel + 1 =>
    match cs.dropWhile jsonWs with
    | c :: rest =>
      if c = Char.ofNat 125 then Except.ok (JValue.jobj [], rest)
      else if c = '"' then
        match parseJStr fuel rest with
        | Except.error e => Except.error e
        | Except.ok (k, r) => parseJObjVal fuel [] (String.mk k) r
      else Except.error "Expecting property name"
    | [] => Except.error "Expecting property name"

/-- Parse `: value` for the key just read, then continue with the object. -/
def parseJObjVal (fuel : Nat) (acc : List (String × JValue)) (k : String)
    (cs : List Char) : Except String (JValue × List Char) :=
  match fuel with
  | 0 => Except.error "out of fuel"
  | fuel + 1 =>
    match cs.dropWhile jsonWs with
    | ':' :: rest =>
      match parseJVal fuel rest with
      | Except.error e => Except.error e
      | Except.ok (v, r) => parseJObjRest fuel (objInsert acc k v) r
    | _ => Except.error "Expecting colon"

/-- Parse the remaining members of a JSON object (after at least one member). -/
def parseJObjRest (fuel : Nat) (acc : List (String × JValue)) (cs : List Char) :
    Except String (JValue × List Char) :=
  match fuel with
  | 0 => Except.error "out of fuel"
  | fuel + 1 =>
    match cs.dropWhile jsonWs with
    | c :: rest =>
      if c = Char.ofNat 125 then Except.ok (JValue.jobj acc, rest)
      else if c = ',' then
        match rest.dropWhile jsonWs with
        | '"' :: r2 =>
          match parseJStr fuel r2 with
          | Except.error e => Except.error e
          | Except.ok (k, r3) => parseJObjVal fuel acc (String.mk k) r3
        | _ => Except.error "Expecting property name"
      else Except.error "Expecting comma or brace"
    | [] => Except.error "Expecting comma or brace"

end

/-- `json.loads`: parse one JSON document; trailing non-whitespace is an error. -/
def jsonParse (s : String) : Except String JValue :=
  match parseJVal (2 * s.length + 8) s.data with
  | Except.error e => Except.error e
  | Except.ok (v, rest) =>
    if (rest.dropWhile jsonWs).isEmpty then Except.ok v
    else Except.error "Extra data"

/-- `question_extractor.extract_json_from_response`: strip a fenced code block
and parse the content as JSON; with no fenced block, raise
`ValueError("No JSON code block found in the response.")` (an `Except.error`
here). A JSON decoding failure is likewise an `Except.error`. -/
def extract_json_from_response (s : String) : Except String JValue :=
  match extractFence s with
  | some content => jsonParse content
  | none => Except.error "No JSON code block found in the response."

/-! ### Data model (spec section 3, refined by answer_generator.process_json_files)

A `QuestionRecord` as stored in the JSON intermediate files: the `Question`
field may be a list of strings, a single string (which the code wraps into a
one-element list) or some other JSON value (which the code replaces with the
empty list); `Context` and `Marks` are optional strings, read with
`dict.get` defaults `""` and `"(Not provided)"`.
-/

inductive QField where
  | qstr (s : String)
  | qlist (xs : List String)
  | qother
  deriving Repr, DecidableEq

structure QBlock where
  question : Option QField
  context : Option String
  marks : Option String
  deriving Repr, DecidableEq

structure DocumentRecord where
  filename : Option String
  question : Option (List QBlock)
  deriving Repr, DecidableEq

structure AnsweredItem where
  question : String
  context : String
  marks : String
  answer : String
  deriving Repr, DecidableEq

/-- The list of individual questions of one block, after the code's
`isinstance` normalization (a plain string becomes a one-element list, a
non-string non-list becomes the empty list; a missing key defaults to `[]`). -/
def QBlock.questionsList (b : QBlock) : List String :=
  match b.question with
  | some (QField.qstr s) => [s]
  | some (QField.qlist xs) => xs
  | some QField.qother => []
  | none => []

/-- The `Context` value after `q_block.get("Context", "")`. -/
def QBlock.contextVal (b : QBlock) : String := b.context.getD ""

/-- The `Marks` value after `q_block.get("Marks", "(Not provided)")`. -/
def QBlock.marksVal (b : QBlock) : String := b.marks.getD "(Not provided)"

/-- Total count of individual questions across all question blocks of a
document (missing `Question` key counts as no blocks). -/
def totalQuestions (d : DocumentRecord) : Nat :=
  ((d.question.getD []).map (fun b => b.questionsList.length)).sum

/-! ### Answer generation (answer_generator.py)

`generate_answer_with_gemini` builds a prompt and calls the remote model;
the remote call is modelled as a function from the prompt to
`Except String String` (an `Except.error` standing for any exception raised
by the API client, which the Python code catches). -/

/-- The prompt built by `generate_answer_with_gemini`. -/
def answerPrompt (question_text context_text marks : String) : String :=
  "Context: " ++ context_text ++ "\n\nQuestion: " ++ question_text ++
    "\n\n generate the answer for the question using context for the " ++ marks ++ " Answer:"

/-- `answer_generator.generate_answer_with_gemini`: returns the remote
response text, or the fixed placeholder when the call raises. -/
def generate_answer_with_gemini (remote : String → Except String String)
    (question_text context_text marks : String) : String :=
  match remote (answerPrompt question_text context_text marks) with
  | Except.ok t => t
  | Except.error _ => "Error: Could not generate answer."

/-- The per-question loop body of `process_json_files`: render the Markdown
section for each question of one block (block index `i`, question index `j`,
`total` questions in the block) and collect the `AnsweredItem`s. -/
def renderQs (remote : String → Except String String) (i total : Nat)
    (ctx marks : String) : Nat → List String → String × List AnsweredItem
  | _, [] => ("", [])
  | j, q :: rest =>
    let numStr :=
      if total > 1 then Nat.repr (i + 1) ++ "." ++ Nat.repr (j + 1) else Nat.repr (i + 1)
    let ans := generate_answer_with_gemini remote (pyStrip q) (pyStrip ctx) marks
    let md :=
      "### Question No: " ++ numStr ++ "\n" ++
      (if ctx ≠ "" then "** ** " ++ pyStrip ctx ++ "\n" else "") ++
      "**Question:** " ++ pyStrip q ++ "\n" ++
      "**Marks:** " ++ pyStrip marks ++ "\n" ++
      "**Answer:** " ++ pyStrip ans ++ "\n\n"
    let res := renderQs remote i total ctx marks (j + 1) rest
    (md ++ res.1, ⟨pyStrip q, pyStrip ctx, marks, ans⟩ :: res.2)

/-- Render one question block (an empty normalized question list contributes
nothing: the code prints a warning and continues). -/
def renderBlock (remote : String → Except String String) (i : Nat) (b : QBlock) :
    String × List AnsweredItem :=
  renderQs remote i b.questionsList.length b.contextVal b.marksVal 0 b.questionsList

/-- Render all question blocks in order, numbering them from block index `i`. -/
def renderBlocks (remote : String → Except String String) :
    Nat → List QBlock → String × List AnsweredItem
  | _, [] => ("", [])
  | i, b :: bs =>
    let r1 := renderBlock remote i b
    let r2 := renderBlocks remote (i + 1) bs
    (r1.1 ++ r2.1, r1.2 ++ r2.2)

/-- The Markdown document written by `process_json_files` for one
`DocumentRecord` (with `base` the JSON file's base name used when the
`filename` field is missing), paired with the `AnsweredItem`s produced. -/
def renderDoc (remote : String → Except String String) (base : String)
    (d : DocumentRecord) : String × List AnsweredItem :=
  let header := "# " ++ d.filename.getD base ++ "\n\n" ++ "### Questions and Answers\n\n"
  let blocks := d.question.getD []
  if blocks.isEmpty then (header ++ "No questions found in this JSON file.\n", [])
  else
    let r := renderBlocks remote 0 blocks
    (header ++ r.1, r.2)

/-! ### Decoding a stored JSON value into a DocumentRecord

`process_json_files` reads the JSON file back with `json.load` and accesses
it with `dict.get`.  `decodeDocJ` interprets a `JValue` as a typed
`DocumentRecord`; it returns `none` for shapes on which the Python code
would raise while processing (e.g. a non-string `Context`), which the
per-file `except` clause turns into skipping that file's remaining output. -/

/-- Interpret the JSON value stored under a block's `Question` key. -/
def decodeQField (v : JValue) : Option QField :=
  match v with
  | JValue.jstr s => some (QField.qstr s)
  | JValue.jarr xs =>
    (xs.mapM (fun x => match x with
      | JValue.jstr s => some s
      | _ => none)).map QField.qlist
  | _ => some QField.qother

/-- Interpret one element of the top-level `Question` array as a block. -/
def decodeBlock (v : JValue) : Option QBlock :=
  match v with
  | JValue.jobj fs =>
    let qf := objGet fs "Question"
    let cf := objGet fs "Context"
    let mf := objGet fs "Marks"
    match qf, cf, mf with
    | q, some (JValue.jstr c), some (JValue.jstr m) =>
      (q.mapM decodeQField).map (fun qd => ⟨qd, some c, some m⟩)
    | q, some (JValue.jstr c), none =>
      (q.mapM decodeQField).map (fun qd => ⟨qd, some c, none⟩)
    | q, none, some (JValue.jstr m) =>
      (q.mapM decodeQField).map (fun qd => ⟨qd, none, some m⟩)
    | q, none, none => (q.mapM decodeQField).map (fun qd => ⟨qd, none, none⟩)
    | _, _, _ => none
  | _ => none

/-- Interpret a stored JSON value as a `DocumentRecord`. -/
def decodeDocJ (v : JValue) : Option DocumentRecord :=
  match v with
  | JValue.jobj fs =>
    let fn :=
      match objGet fs "filename" with
      | some (JValue.jstr s) => some (some s)
      | none => some none
      | _ => none
    let qs :=
      match objGet fs "Question" with
      | some (JValue.jarr bs) => (bs.mapM decodeBlock).map some
      | none => some none
      | _ => none
    match fn, qs with
    | some f, some q => some ⟨f, q⟩
    | _, _ => none
  | _ => none

/-! ### The extraction stage and the per-document pipeline

`analyze_text_with_gemini` sends the document text to the model and returns
either the parsed JSON value, the sentinel `"No relevant questions found."`
(when the response carries no content), or `"Error during AI analysis."`
(when the API call or the fence/JSON parsing raises).  The remote call is
modelled as an `Except`-valued input: `Except.error` for a raised exception,
`Except.ok none` for a response without content parts, `Except.ok (some
txt)` for a response with text `txt`. -/

inductive AnalyzeResult where
  | record (v : JValue)
  | noRelevant
  | analysisError
  deriving Repr

/-- `question_extractor.analyze_text_with_gemini` (with the API key present;
the prompt construction is irrelevant to the result structure). -/
def analyze_text_with_gemini (resp : Except String (Option String)) : AnalyzeResult :=
  match resp with
  | Except.error _ => AnalyzeResult.analysisError
  | Except.ok none => AnalyzeResult.noRelevant
  | Except.ok (some txt) =>
    match extract_json_from_response txt with
    | Except.ok v => AnalyzeResult.record v
    | Except.error _ => AnalyzeResult.analysisError

/-- Python truthiness of a JSON value (`if relevant_questions:`). -/
def jTruthy (v : JValue) : Bool :=
  match v with
  | JValue.jstr s => !(s = "")
  | JValue.jnum n => !(n = 0)
  | JValue.jbool b => b
  | JValue.jnull => false
  | JValue.jarr xs => !xs.isEmpty
  | JValue.jobj fs => !fs.isEmpty

/-- Does `question_extractor` write a JSON file for this analysis result?
(`if relevant_questions and relevant_questions != "No relevant questions
found." and relevant_questions != "Error during AI analysis.":`; the two
sentinel strings are distinct constructors here, and a parsed value must be
truthy). -/
def analysisWritesRecord (a : AnalyzeResult) : Bool :=
  match a with
  | AnalyzeResult.record v => jTruthy v
  | AnalyzeResult.noRelevant => false
  | AnalyzeResult.analysisError => false

/-- The JSON file written for one source document: `question_extractor`
skips the document when the PDF text is empty, and writes the parsed record
only when the analysis produced a truthy record. -/
def jsonStage (pdfText : String) (resp : Except String (Option String)) : Option JValue :=
  if pdfText = "" then none
  else
    match analyze_text_with_gemini resp with
    | AnalyzeResult.record v => if jTruthy v then some v else none
    | _ => none

/-- Per-document pipeline outcome: the JSON value written (if any), whether a
Markdown file is created for it, and whether a PDF file is created for it.
`process_json_files` opens (creates) the Markdown file whenever the loaded
JSON value is a dict; `convert_markdown_to_pdf` opens (creates) the PDF file
for every Markdown file present. -/
def pipelineDoc (pdfText : String) (resp : Except String (Option String)) :
    Option JValue × Bool × Bool :=
  let j := jsonStage pdfText resp
  let mdExists :=
    match j with
    | some (JValue.jobj _) => true
    | _ => false
  (j, mdExists, mdExists)

/-- `os.environ[...]` / `os.getenv(...)` lookup in an environment list. -/
def lookupEnv (env : List (String × String)) (k : String) : Option String :=
  (env.find? (fun p => p.1 = k)).map (fun p => p.2)

/-- `main.py`: importing `answer_generator` runs its module-level
configuration, which reads `os.environ["GEMINI_API_KEY"]` and calls `exit()`
on `KeyError` — before `question_extractor()` or any other document work
runs.  With the key present the per-document pipeline runs over all inputs.
The environment list is the process environment after `load_dotenv()`. -/
def runMain (env : List (String × String))
    (docs : List (String × Except String (Option String))) :
    Except String (List (Option JValue × Bool × Bool)) :=
  match lookupEnv env "GEMINI_API_KEY" with
  | none => Except.error "GEMINI_API_KEY environment variable not set."
  | some _ => Except.ok (docs.map (fun d => pipelineDoc d.1 d.2))

/-! ### PDF text extraction (question_extractor.extract_text_from_pdf)

The PDF library is an external collaborator: opening the file yields either
an exception (`Except.error`) or a list of pages, and reading each page
yields either its text or an exception.  The Python code accumulates page
text in a loop inside `try`, so an exception while reading a page aborts
the loop and the accumulated prefix is returned. -/

/-- The page-reading loop: concatenate page texts until a page read raises. -/
def readPages : List (Except String String) → String → String
  | [], acc => acc
  | Except.ok t :: ps, acc => readPages ps (acc ++ t)
  | Except.error _ :: _, acc => acc

/-- `question_extractor.extract_text_from_pdf`. -/
def extract_text_from_pdf (openRes : Except String (List (Except String String))) :
    String :=
  match openRes with
  | Except.error _ => ""
  | Except.ok pages => readPages pages ""

/-- Concatenation of a list of strings (the text of all pages). -/
def concatStrs : List String → String
  | [] => ""
  | t :: ts => t ++ concatStrs ts

/-! ### Markdown-to-PDF text transform (markdown_convertor.convert_markdown_to_pdf)

After converting Markdown to HTML, the code runs two sequential
substitutions on the HTML text:
`re.sub(r'(answer)', lambda m: '<br/>' + m.group(0), html, flags=re.IGNORECASE)`
then `re.sub(r'(Marks)', lambda m: '<br/>' + m.group(0), ...)` (case
sensitive).  `re.sub` replaces non-overlapping leftmost matches, and the
replacement keeps the matched text, so each substitution inserts `<br/>`
before the match and resumes scanning after it.  Case-insensitivity is
modelled with ASCII lowercasing (the strings in play are ASCII). -/

/-- ASCII lowercasing, modelling `re.IGNORECASE` on the ASCII pattern. -/
def lowerC (c : Char) : Char :=
  if 'A' ≤ c ∧ c ≤ 'Z' then Char.ofNat (c.toNat + 32) else c

/-- Does the text start with a case-insensitive occurrence of `answer`? -/
def matchCIAns : List Char → Bool
  | c0 :: c1 :: c2 :: c3 :: c4 :: c5 :: _ =>
    decide (lowerC c0 = 'a') && decide (lowerC c1 = 'n') && decide (lowerC c2 = 's') &&
    decide (lowerC c3 = 'w') && decide (lowerC c4 = 'e') && decide (lowerC c5 = 'r')
  | _ => false

/-- Does the text start with a case-sensitive occurrence of `Marks`? -/
def matchMarks : List Char → Bool
  | c0 :: c1 :: c2 :: c3 :: c4 :: _ =>
    decide (c0 = 'M') && decide (c1 = 'a') && decide (c2 = 'r') && decide (c3 = 'k') &&
    decide (c4 = 's')
  | _ => false

/-- The inserted line break. -/
def brTag : List Char := ['<', 'b', 'r', '/', '>']

/-- First substitution: insert `<br/>` before each non-overlapping
case-insensitive occurrence of `answer`, resuming after the match. -/
def subAns : List Char → List Char
  | c0 :: c1 :: c2 :: c3 :: c4 :: c5 :: rest =>
    if matchCIAns (c0 :: c1 :: c2 :: c3 :: c4 :: c5 :: rest) then
      brTag ++ c0 :: c1 :: c2 :: c3 :: c4 :: c5 :: subAns rest
    else c0 :: subAns (c1 :: c2 :: c3 :: c4 :: c5 :: rest)
  | l => l

/-- Second substitution: insert `<br/>` before each non-overlapping
case-sensitive occurrence of `Marks`, resuming after the match. -/
def subMarks : List Char → List Char
  | c0 :: c1 :: c2 :: c3 :: c4 :: rest =>
    if matchMarks (c0 :: c1 :: c2 :: c3 :: c4 :: rest) then
      brTag ++ c0 :: c1 :: c2 :: c3 :: c4 :: subMarks rest
    else c0 :: subMarks (c1 :: c2 :: c3 :: c4 :: rest)
  | l => l

/-- The transform the code applies to the HTML text. -/
def convertTransform (html : String) : String :=
  String.mk (subMarks (subAns html.data))

/-- Per-position variant of the first substitution: insert `<br/>` before
every position where a case-insensitive `answer` occurrence starts,
advancing one character at a time (an intermediate between the code's
substitution and the specification's wording). -/
def specAns : List Char → List Char
  | [] => []
  | c :: cs => (if matchCIAns (c :: cs) then brTag else []) ++ c :: specAns cs

/-- Per-position variant of the second substitution. -/
def specMarks : List Char → List Char
  | [] => []
  | c :: cs => (if matchMarks (c :: cs) then brTag else []) ++ c :: specMarks cs

/-- Modelled from the spec's wording: "inserts a line break before every
case-insensitive occurrence of the word `answer` and every case-sensitive
occurrence of the word `Marks` ... and changes nothing else": walk the
text one character at a time, emitting `<br/>` exactly at the positions
where one of the two occurrences starts and copying every character. -/
def transformSpecList : List Char → List Char
  | [] => []
  | c :: cs =>
    (if matchCIAns (c :: cs) || matchMarks (c :: cs) then brTag else []) ++
      c :: transformSpecList cs

/-- The spec-side transform on strings. -/
def transformSpec (html : String) : String :=
  String.mk (transformSpecList html.data)

/-! ### Helper lemmas -/

theorem renderQs_length (remote : String → Except String String) (i total : Nat)
    (ctx marks : String) :
    ∀ (qs : List String) (j : Nat),
      ((renderQs remote i total ctx marks j qs).2).length = qs.length := by
  intro qs
  induction qs with
  | nil => intro j; simp [renderQs]
  | cons q rest ih => intro j; simp [renderQs, ih]

theorem renderBlock_length (remote : String → Except String String) (i : Nat)
    (b : QBlock) : ((renderBlock remote i b).2).length = b.questionsList.length := by
  simp [renderBlock, renderQs_length]

theorem renderBlocks_length (remote : String → Except String String) :
    ∀ (bs : List QBlock) (i : Nat),
      ((renderBlocks remote i bs).2).length =
        (bs.map (fun b => b.questionsList.length)).sum := by
  intro bs
  induction bs with
  | nil => intro i; simp [renderBlocks]
  | cons b rest ih => intro i; simp [renderBlocks, renderBlock_length, ih]

theorem renderDoc_length (remote : String → Except String String) (base : String)
    (d : DocumentRecord) : ((renderDoc remote base d).2).length = totalQuestions d := by
  unfold renderDoc totalQuestions
  by_cases h : (d.question.getD []).isEmpty
  · rw [List.isEmpty_iff] at h
    simp [h]
  · simp only [h, if_false]
    exact renderBlocks_length remote (d.question.getD []) 0

theorem renderQs_answer_inv (remote : String → Except String String) (i total : Nat)
    (ctx marks : String) :
    ∀ (qs : List String) (j : Nat) (it : AnsweredItem),
      it ∈ (renderQs remote i total ctx marks j qs).2 →
      it.answer = generate_answer_with_gemini remote it.question it.context it.marks := by
  intro qs
  induction qs with
  | nil => intro j it h; simp [renderQs] at h
  | cons q rest ih =>
    intro j it h
    simp only [renderQs, List.mem_cons] at h
    cases h with
    | inl h => subst h; rfl
    | inr h => exact ih (j + 1) it h

theorem renderDoc_answer_inv (remote : String → Except String String) (base : String)
    (d : DocumentRecord) :
    ∀ it ∈ (renderDoc remote base d).2,
      it.answer = generate_answer_with_gemini remote it.question it.context it.marks := by
  intro it hit
  unfold renderDoc at hit
  by_cases h : (d.question.getD []).isEmpty
  · simp [h] at hit
  · simp only [h, if_false] at hit
    revert hit
    generalize 0 = i0
    induction d.question.getD [] generalizing i0 with
    | nil => intro hit; simp [renderBlocks] at hit
    | cons b rest ih =>
      intro hit
      have hsplit : (renderBlocks remote i0 (b :: rest)).2 =
          (renderBlock remote i0 b).2 ++ (renderBlocks remote (i0 + 1) rest).2 := rfl
      rw [hsplit] at hit
      cases List.mem_append.mp hit with
      | inl hmem => exact renderQs_answer_inv remote i0 _ _ _ _ 0 it hmem
      | inr hmem => exact ih (i0 + 1) hmem

/-! ### Claim theorems -/

/-- C2: For every DocumentRecord processed by the answer-generation stage,
the number of AnsweredItem values produced (answer sections written to the
Markdown file) equals the total count of individual questions summed across
all QuestionRecords in that document. -/
theorem answered_items_count_eq_total_questions
    (remote : String → Except String String) (base : String) (d : DocumentRecord) :
    ((renderDoc remote base d).2).length = totalQuestions d :=
  renderDoc_length remote base d

/-- C4: If the remote call fails during answer generation for some question,
the stage does not raise: every question of the document still yields an
AnsweredItem (the batch continues), and any item whose remote call failed
carries the fixed placeholder string as its answer. -/
theorem remote_failure_yields_placeholder_and_batch_continues
    (remote : String → Except String String) (base : String) (d : DocumentRecord) :
    ((renderDoc remote base d).2).length = totalQuestions d ∧
    ∀ it ∈ (renderDoc remote base d).2, ∀ e : String,
      remote (answerPrompt it.question it.context it.marks) = Except.error e →
      it.answer = "Error: Could not generate answer." := by
  refine ⟨renderDoc_length remote base d, ?_⟩
  intro it hit e he
  rw [renderDoc_answer_inv remote base d it hit]
  simp [generate_answer_with_gemini, he]

/-- Witness for C4: a remote that always fails, on a document with two
questions, still yields two AnsweredItems, both with the placeholder
answer. -/
theorem remote_failure_placeholder_witness :
    ((renderDoc (fun _ => Except.error "network down") "b"
        ⟨some "f", some [⟨some (QField.qlist ["Q1", "Q2"]), some "c", some "5"⟩]⟩).2).length =
      totalQuestions
        ⟨some "f", some [⟨some (QField.qlist ["Q1", "Q2"]), some "c", some "5"⟩]⟩ ∧
    (⟨"Q1", "c", "5", "Error: Could not generate answer."⟩ : AnsweredItem).answer =
      "Error: Could not generate answer." := by
  refine ⟨(remote_failure_yields_placeholder_and_batch_continues
    (fun _ => Except.error "network down") "b"
    ⟨some "f", some [⟨some (QField.qlist ["Q1", "Q2"]), some "c", some "5"⟩]⟩).1, ?_⟩
  exact (remote_failure_yields_placeholder_and_batch_continues
    (fun _ => Except.error "network down") "b"
    ⟨some "f", some [⟨some (QField.qlist ["Q1", "Q2"]), some "c", some "5"⟩]⟩).2
    ⟨"Q1", "c", "5", "Error: Could not generate answer."⟩ (by decide) "network down" rfl

/-- C5: Rendering is idempotent: rendering the same DocumentRecord twice
(against the same remote collaborator, which is a fixed function of the
prompt) produces byte-identical Markdown output both times; there is no
other source of nondeterminism in the rendering stage. -/
theorem rendering_deterministic (r1 r2 : String → Except String String)
    (base : String) (d : DocumentRecord) (h : ∀ p, r1 p = r2 p) :
    renderDoc r1 base d = renderDoc r2 base d := by
  rw [funext h]

/-- Witness for C5 at a concrete document and remote. -/
theorem rendering_deterministic_witness :
    renderDoc (fun _ => Except.ok "A") "b"
        ⟨some "f", some [⟨some (QField.qlist ["Q"]), some "c", some "5"⟩]⟩ =
      renderDoc (fun _ => Except.ok "A") "b"
        ⟨some "f", some [⟨some (QField.qlist ["Q"]), some "c", some "5"⟩]⟩ :=
  rendering_deterministic _ _ "b"
    ⟨some "f", some [⟨some (QField.qlist ["Q"]), some "c", some "5"⟩]⟩ (fun _ => rfl)

/-- C6: If the API-key environment variable is absent, the program treats it
as a fatal configuration error: importing `answer_generator` (which happens
in `main.py` before any document work) reads `os.environ["GEMINI_API_KEY"]`
and exits, so the run aborts with the error and produces no per-document
outcome. -/
theorem missing_api_key_is_fatal (env : List (String × String))
    (docs : List (String × Except String (Option String)))
    (h : lookupEnv env "GEMINI_API_KEY" = none) :
    runMain env docs = Except.error "GEMINI_API_KEY environment variable not set." := by
  simp [runMain, h]

/-- Witness for C6: the empty environment aborts the run. -/
theorem missing_api_key_is_fatal_witness :
    runMain [] [("some pdf text", Except.ok (some "irrelevant"))] =
      Except.error "GEMINI_API_KEY environment variable not set." :=
  missing_api_key_is_fatal [] [("some pdf text", Except.ok (some "irrelevant"))] rfl

theorem readPages_ok_append (ts : List String) :
    ∀ (acc : String) (r : List (Except String String)),
      readPages (ts.map Except.ok ++ r) acc = readPages r (acc ++ concatStrs ts) := by
  induction ts with
  | nil => intro acc r; simp [concatStrs, readPages, String.append_empty]
  | cons t ts ih =>
    intro acc r
    show readPages (ts.map Except.ok ++ r) (acc ++ t) =
      readPages r (acc ++ (t ++ concatStrs ts))
    rw [ih, String.append_assoc]

/-- C9 amended: the document text extractor never raises; it returns the
empty string when the file cannot be opened, the concatenation of all page
texts when every page reads successfully, and the concatenation of the pages
read so far (not necessarily empty) when a page read raises midway. -/
theorem extract_text_from_pdf_characterization :
    (∀ e : String, extract_text_from_pdf (Except.error e) = "") ∧
    (∀ ts : List String,
      extract_text_from_pdf (Except.ok (ts.map Except.ok)) = concatStrs ts) ∧
    (∀ (ts : List String) (e : String) (rest : List (Except String String)),
      extract_text_from_pdf (Except.ok (ts.map Except.ok ++ Except.error e :: rest)) =
        concatStrs ts) := by
  refine ⟨fun e => rfl, fun ts => ?_, fun ts e rest => ?_⟩
  · show readPages (ts.map Except.ok) "" = concatStrs ts
    rw [← List.append_nil (ts.map Except.ok), readPages_ok_append]
    simp [readPages]
  · show readPages (ts.map Except.ok ++ Except.error e :: rest) "" = concatStrs ts
    rw [readPages_ok_append]
    simp [readPages]

/-- C9 counterexample: with one readable page of text "A" followed by a page
whose read raises, the extractor returns "A" — not the empty string, and the
input is not a document all of whose pages yielded text, so the result is
neither of the two outcomes the claim allows. -/
theorem extract_text_partial_read_counterexample :
    extract_text_from_pdf (Except.ok [Except.ok "A", Except.error "bad page"]) ≠ "" ∧
    ¬ ∃ ts : List String,
        ([Except.ok "A", Except.error "bad page"] : List (Except String String)) =
          ts.map Except.ok ∧
        extract_text_from_pdf (Except.ok [Except.ok "A", Except.error "bad page"]) =
          concatStrs ts := by
  constructor
  · decide
  · rintro ⟨ts, h, -⟩
    have hmem : (Except.error "bad page" : Except String String) ∈ ts.map Except.ok := by
      rw [← h]; simp
    simp [List.mem_map] at hmem

/-! ### List-prefix and substring helpers for statements about the Markdown text -/

/-- Does `l` start with `p`? -/
def startsWithL : List Char → List Char → Bool
  | _, [] => true
  | [], _ :: _ => false
  | c :: cs, p :: ps => decide (c = p) && startsWithL cs ps

/-- Does `l` contain `p` as a contiguous sublist? -/
def containsL : List Char → List Char → Bool
  | [], p => startsWithL [] p
  | c :: cs, p => startsWithL (c :: cs) p || containsL cs p

theorem startsWithL_append (p r : List Char) : startsWithL (p ++ r) p = true := by
  induction p with
  | nil => cases r <;> rfl
  | cons c cs ih => simp [startsWithL, ih]

theorem startsWithL_append_cancel (a x y : List Char) :
    startsWithL (a ++ x) (a ++ y) = startsWithL x y := by
  induction a with
  | nil => rfl
  | cons c cs ih => simp [startsWithL, ih]

theorem containsL_of_startsWithL (l p : List Char) (h : startsWithL l p = true) :
    containsL l p = true := by
  cases l with
  | nil => exact h
  | cons c cs => simp [containsL, h]

theorem containsL_append_right (l m p : List Char) (h : containsL m p = true) :
    containsL (l ++ m) p = true := by
  induction l with
  | nil => exact h
  | cons c cs ih => simp [containsL, ih]

theorem containsL_middle (a p b : List Char) : containsL (a ++ (p ++ b)) p = true :=
  containsL_append_right a (p ++ b) p (containsL_of_startsWithL _ p (startsWithL_append p b))

theorem startsWithL_of_eq_append (s p t : String) (h : s = p ++ t) :
    startsWithL s.data p.data = true := by
  subst h; rw [String.data_append]; exact startsWithL_append _ _

/-- The Markdown text rendered for a nonempty question list starts with the
heading line `### Question No: <display>`, where the display number is the
plain block number `i+1` for a single-question block and `i+1`.`j+1`
otherwise, exactly as `process_json_files` computes it. -/
theorem renderQs_heading (remote : String → Except String String) (i total : Nat)
    (ctx marks : String) (j : Nat) (q : String) (rest : List String) :
    startsWithL ((renderQs remote i total ctx marks j (q :: rest)).1).data
      ("### Question No: " ++
        ((if total > 1 then Nat.repr (i + 1) ++ "." ++ Nat.repr (j + 1)
          else Nat.repr (i + 1)) ++ "\n")).data = true := by
  apply startsWithL_of_eq_append _ _
    ((if ctx ≠ "" then "** ** " ++ pyStrip ctx ++ "\n" else "") ++
      ("**Question:** " ++ (pyStrip q ++ ("\n" ++ ("**Marks:** " ++ (pyStrip marks ++ ("\n" ++
      ("**Answer:** " ++
        (pyStrip (generate_answer_with_gemini remote (pyStrip q) (pyStrip ctx) marks) ++
        ("\n\n" ++ (renderQs remote i total ctx marks (j + 1) rest).1))))))))))
  simp only [renderQs, String.append_assoc]

/-- C10: When a QuestionRecord contains exactly one question (whether stored
as a one-element list or as a plain string), the rendered Markdown heading
for it is the plain block number (`### Question No: <i+1>` followed directly
by the newline, so no sub-number), whereas with more than one question the
heading carries the sub-number form `<i+1>.1` for the first question (and
`<i+1>.<j+1>` in general, by `renderQs_heading`). -/
theorem single_question_plain_number_multi_question_sub_numbers
    (remote : String → Except String String) (i : Nat) (q c m q1 q2 : String)
    (qs : List String) :
    startsWithL ((renderBlock remote i ⟨some (QField.qlist [q]), some c, some m⟩).1).data
        ("### Question No: " ++ Nat.repr (i + 1) ++ "\n").data = true ∧
    startsWithL ((renderBlock remote i ⟨some (QField.qstr q), some c, some m⟩).1).data
        ("### Question No: " ++ Nat.repr (i + 1) ++ "\n").data = true ∧
    startsWithL ((renderBlock remote i
        ⟨some (QField.qlist (q1 :: q2 :: qs)), some c, some m⟩).1).data
        ("### Question No: " ++ Nat.repr (i + 1) ++ ".1\n").data = true := by
  refine ⟨renderQs_heading remote i 1 c m 0 q [], renderQs_heading remote i 1 c m 0 q [], ?_⟩
  have hgt : (q1 :: q2 :: qs).length > 1 := by simp
  have h := renderQs_heading remote i (q1 :: q2 :: qs).length c m 0 q1 (q2 :: qs)
  rw [if_pos hgt] at h
  have heq : ("### Question No: " ++
        (Nat.repr (i + 1) ++ "." ++ Nat.repr (0 + 1) ++ "\n")).data =
      ("### Question No: " ++ Nat.repr (i + 1) ++ ".1\n").data := by
    simp only [String.data_append, List.append_assoc]
    rfl
  rw [heq] at h
  exact h

set_option maxRecDepth 40000 in
/-- C8: For the first (and only) QuestionRecord of a document equal to
`{questions: ["What is X?", "What is Y?"], context: "C", marks: "5"}`,
exactly two AnsweredItems are produced, both carrying context `"C"` and
marks `"5"`, and the rendered Markdown numbers them `1.1` and `1.2` (the
full Markdown text is exhibited, with the two generated answers as the only
remote-dependent parts). -/
theorem example_record_two_items_numbered_1_1_and_1_2
    (remote : String → Except String String) :
    (renderDoc remote "base"
        ⟨some "doc.pdf", some [⟨some (QField.qlist ["What is X?", "What is Y?"]),
          some "C", some "5"⟩]⟩).2 =
      [⟨"What is X?", "C", "5", generate_answer_with_gemini remote "What is X?" "C" "5"⟩,
       ⟨"What is Y?", "C", "5", generate_answer_with_gemini remote "What is Y?" "C" "5"⟩] ∧
    (renderDoc remote "base"
        ⟨some "doc.pdf", some [⟨some (QField.qlist ["What is X?", "What is Y?"]),
          some "C", some "5"⟩]⟩).1 =
      "# doc.pdf\n\n### Questions and Answers\n\n### Question No: 1.1\n** ** C\n**Question:** What is X?\n**Marks:** 5\n**Answer:** " ++
        (pyStrip (generate_answer_with_gemini remote "What is X?" "C" "5") ++
        ("\n\n### Question No: 1.2\n** ** C\n**Question:** What is Y?\n**Marks:** 5\n**Answer:** " ++
          (pyStrip (generate_answer_with_gemini remote "What is Y?" "C" "5") ++ "\n\n"))) := by
  constructor
  · rfl
  · simp only [renderDoc, renderBlocks, renderBlock, renderQs, QBlock.questionsList,
      QBlock.contextVal, QBlock.marksVal, Option.getD_some, List.isEmpty_cons,
      String.append_assoc, String.append_empty]
    rfl
def noTick (l : List Char) : Bool := l.all (fun c => !decide (c = tick))

theorem startsTicks_cons_false (c : Char) (cs : List Char) (h : ¬ c = tick) :
    startsTicks (c :: cs) = false := by
  simp [startsTicks, h]

theorem dropToTicks_none (l : List Char) (h : noTick l = true) : dropToTicks l = none := by
  induction l with
  | nil => rfl
  | cons c cs ih =>
    simp only [noTick, List.all_cons, Bool.and_eq_true, Bool.not_eq_true] at h
    rw [dropToTicks, startsTicks_cons_false c cs (by simpa using h.1)]
    simp only [Bool.false_eq_true, if_false]
    exact ih (by simp [noTick, h.2])

theorem takeToTicks_append (l r : List Char) (h : noTick l = true) :
    takeToTicks (l ++ tick :: tick :: tick :: r) = some l := by
  induction l with
  | nil =>
    rw [List.nil_append, takeToTicks]
    simp [startsTicks]
  | cons c cs ih =>
    simp only [noTick, List.all_cons, Bool.and_eq_true, Bool.not_eq_true] at h
    rw [List.cons_append, takeToTicks,
      startsTicks_cons_false c _ (by simpa using h.1)]
    simp only [Bool.false_eq_true, if_false]
    rw [ih (by simp [noTick, h.2])]
    rfl

theorem noTick_dropWhile (p : Char → Bool) (l : List Char) (h : noTick l = true) :
    noTick (l.dropWhile p) = true := by
  induction l with
  | nil => rfl
  | cons c cs ih =>
    simp only [noTick, List.all_cons, Bool.and_eq_true] at h
    rw [List.dropWhile_cons]
    by_cases hp : p c
    · simp only [hp, if_true]
      exact ih (by simp [noTick, h.2])
    · simp only [hp, Bool.false_eq_true, if_false]
      simp [noTick, h.1, h.2]

theorem extractFence_wrapped (t : String) (h : noTick t.data = true) :
    extractFence ("```json\n" ++ t ++ "\n```") = some (pyStrip t) := by
  have hdata : ("```json\n" ++ t ++ "\n```").data =
      tick :: tick :: tick :: 'j' :: 's' :: 'o' :: 'n' :: '\n' ::
        (t.data ++ "\n```".data) := rfl
  have hdrop : dropToTicks
      (tick :: tick :: tick :: 'j' :: 's' :: 'o' :: 'n' :: '\n' ::
        (t.data ++ "\n```".data)) =
      some ('j' :: 's' :: 'o' :: 'n' :: '\n' :: (t.data ++ "\n```".data)) := by
    rw [dropToTicks]; simp [startsTicks]
  have hskip : skipJsonTag ('j' :: 's' :: 'o' :: 'n' :: '\n' :: (t.data ++ "\n```".data)) =
      '\n' :: (t.data ++ "\n```".data) := by
    rw [skipJsonTag]; simp
  have hdw : List.dropWhile pyIsSpace ('\n' :: (t.data ++ "\n```".data)) =
      List.dropWhile pyIsSpace (t.data ++ "\n```".data) := by
    rw [List.dropWhile_cons]; simp [pyIsSpace]
  by_cases hu : (t.data.dropWhile pyIsSpace).isEmpty
  · have htake : takeToTicks (List.dropWhile pyIsSpace (t.data ++ "\n```".data)) =
        some [] := by
      rw [List.dropWhile_append, if_pos hu]
      rw [show List.dropWhile pyIsSpace ("\n```".data) = tick :: tick :: tick :: [] from rfl]
      exact takeToTicks_append [] [] rfl
    have hstrip : pyStrip t = "" := by
      rw [pyStrip, pyStripList, List.isEmpty_iff.mp hu]; rfl
    rw [hstrip]
    simp only [extractFence, hdata, hdrop, hskip, hdw, htake]
    rfl
  · have hsplit : List.dropWhile pyIsSpace (t.data ++ "\n```".data) =
        (t.data.dropWhile pyIsSpace ++ ['\n']) ++ tick :: tick :: tick :: [] := by
      rw [List.dropWhile_append, if_neg hu]
      rw [show "\n```".data = '\n' :: tick :: tick :: tick :: [] from rfl]
      rw [List.append_assoc]
      rfl
    have htake : takeToTicks (List.dropWhile pyIsSpace (t.data ++ "\n```".data)) =
        some (t.data.dropWhile pyIsSpace ++ ['\n']) := by
      rw [hsplit]
      refine takeToTicks_append _ _ ?_
      rw [noTick, List.all_append]
      refine Bool.and_eq_true_iff.mpr ⟨noTick_dropWhile pyIsSpace t.data h, ?_⟩
      rfl
    have hcontent : pyStripList (t.data.dropWhile pyIsSpace ++ ['\n']) =
        pyStripList t.data := by
      rw [pyStripList, pyStripList]
      have h1 : List.dropWhile pyIsSpace (t.data.dropWhile pyIsSpace ++ ['\n']) =
          t.data.dropWhile pyIsSpace ++ ['\n'] := by
        rw [List.dropWhile_append, List.dropWhile_idempotent, if_neg hu]
      rw [h1, dropTrailingWs, dropTrailingWs, List.reverse_append]
      rw [show (['\n'] : List Char).reverse ++ (t.data.dropWhile pyIsSpace).reverse =
        '\n' :: (t.data.dropWhile pyIsSpace).reverse from rfl]
      rw [List.dropWhile_cons]
      simp [pyIsSpace, List.dropWhile_idempotent]
    simp only [extractFence, hdata, hdrop, hskip, hdw, htake]
    rw [pyStrip, hcontent]

/-- C1 amended: the extraction stage strips the fence before structured
parsing: for every fence-free response `t` (no backtick characters), parsing
the version wrapped in a fenced code block succeeds exactly when JSON-parsing
the stripped unwrapped content does, and yields the identical structured
record; the unwrapped version itself, however, is NOT accepted —
`extract_json_from_response` raises
`ValueError("No JSON code block found in the response.")` on any response
without a fenced block, so the two parses are not both successful. -/
theorem fenced_parse_equals_parse_of_unwrapped_content (t : String)
    (h : noTick t.data = true) :
    extract_json_from_response ("```json\n" ++ t ++ "\n```") = jsonParse (pyStrip t) ∧
    extract_json_from_response t =
      Except.error "No JSON code block found in the response." := by
  constructor
  · simp only [extract_json_from_response, extractFence_wrapped t h]
  · simp only [extract_json_from_response, extractFence, dropToTicks_none t.data h]

/-- Witness for C1's amended theorem at a concrete JSON response. -/
theorem fenced_parse_equals_parse_witness :
    noTick ("\x7b\"filename\": \"doc.pdf\", \"Question\": []\x7d" : String).data = true ∧
    extract_json_from_response
        ("```json\n" ++ "\x7b\"filename\": \"doc.pdf\", \"Question\": []\x7d" ++ "\n```") =
      jsonParse (pyStrip "\x7b\"filename\": \"doc.pdf\", \"Question\": []\x7d") :=
  ⟨by decide,
   (fenced_parse_equals_parse_of_unwrapped_content
     "\x7b\"filename\": \"doc.pdf\", \"Question\": []\x7d" (by decide)).1⟩

/-- C1 counterexample: for the response
`{"filename": "doc.pdf", "Question": []}`, the fenced version parses to a
structured record but the equivalent unwrapped version raises
`ValueError("No JSON code block found in the response.")` — the two parses
do not both succeed, refuting the claim as stated. -/
theorem unwrapped_response_fails_counterexample :
    extract_json_from_response "\x7b\"filename\": \"doc.pdf\", \"Question\": []\x7d" =
      Except.error "No JSON code block found in the response." ∧
    extract_json_from_response
        "```json\n\x7b\"filename\": \"doc.pdf\", \"Question\": []\x7d\n```" =
      Except.ok (JValue.jobj [("filename", JValue.jstr "doc.pdf"),
        ("Question", JValue.jarr [])]) :=
  ⟨rfl, rfl⟩

/-- C3 amended: when the extraction stage does not produce a truthy parsed
record for a document — it reports the no-relevant-content sentinel, an
analysis error (including the unparsable-response case), or a falsy value —
no JSON file, no Markdown file and no PDF file is produced for that
document.  (A truthy parsed record with an EMPTY question list, however, is
written and does produce Markdown and PDF files; see the counterexample.) -/
theorem no_truthy_record_no_files (pdfText : String)
    (resp : Except String (Option String))
    (h : analysisWritesRecord (analyze_text_with_gemini resp) = false) :
    pipelineDoc pdfText resp = (none, false, false) := by
  have hj : jsonStage pdfText resp = none := by
    unfold jsonStage
    by_cases hp : pdfText = ""
    · simp [hp]
    · simp only [hp, if_false]
      cases ha : analyze_text_with_gemini resp with
      | record v =>
        rw [ha] at h
        simp only [analysisWritesRecord] at h
        simp [h]
      | noRelevant => rfl
      | analysisError => rfl
  unfold pipelineDoc
  rw [hj]

/-- Witness for C3's amended theorem: a response without content parts
(the no-relevant sentinel path) produces no files. -/
theorem no_truthy_record_no_files_witness :
    analysisWritesRecord (analyze_text_with_gemini (Except.ok none)) = false ∧
    pipelineDoc "Some pdf text." (Except.ok none) = (none, false, false) :=
  ⟨rfl, no_truthy_record_no_files "Some pdf text." (Except.ok none) rfl⟩

/-- C3 counterexample: a document whose extraction yields a parsed record
with ZERO questions (`{"filename": "doc.pdf", "Question": []}`, fenced)
nevertheless gets its JSON file written (the nonempty dict is truthy), a
Markdown file created (saying "No questions found in this JSON file.") and a
PDF file produced from it — refuting the claim for this zero-question
document. -/
theorem empty_question_record_produces_files_counterexample :
    analyze_text_with_gemini
        (Except.ok (some "```json\n\x7b\"filename\": \"doc.pdf\", \"Question\": []\x7d\n```")) =
      AnalyzeResult.record (JValue.jobj [("filename", JValue.jstr "doc.pdf"),
        ("Question", JValue.jarr [])]) ∧
    decodeDocJ (JValue.jobj [("filename", JValue.jstr "doc.pdf"),
        ("Question", JValue.jarr [])]) =
      some ⟨some "doc.pdf", some []⟩ ∧
    totalQuestions ⟨some "doc.pdf", some []⟩ = 0 ∧
    pipelineDoc "Some pdf text."
        (Except.ok (some "```json\n\x7b\"filename\": \"doc.pdf\", \"Question\": []\x7d\n```")) =
      (some (JValue.jobj [("filename", JValue.jstr "doc.pdf"),
        ("Question", JValue.jarr [])]), true, true) ∧
    (renderDoc (fun p => Except.ok p) "doc" ⟨some "doc.pdf", some []⟩).1 =
      "# doc.pdf\n\n### Questions and Answers\n\nNo questions found in this JSON file.\n" :=
  ⟨rfl, rfl, rfl, rfl, rfl⟩

/-! ### C7: the two sequential substitutions equal the per-position insertion transform -/
theorem matchMarks_f1 (c0 : Char) (cs : List Char) (h : ¬ c0 = 'M') :
    matchMarks (c0 :: cs) = false := by
  rcases cs with _ | ⟨c1, _ | ⟨c2, _ | ⟨c3, _ | ⟨c4, cs⟩⟩⟩⟩ <;> simp [matchMarks, h]

theorem matchMarks_f2 (c0 c1 : Char) (cs : List Char) (h : ¬ c1 = 'a') :
    matchMarks (c0 :: c1 :: cs) = false := by
  rcases cs with _ | ⟨c2, _ | ⟨c3, _ | ⟨c4, cs⟩⟩⟩ <;> simp [matchMarks, h]

theorem matchMarks_f3 (c0 c1 c2 : Char) (cs : List Char) (h : ¬ c2 = 'r') :
    matchMarks (c0 :: c1 :: c2 :: cs) = false := by
  rcases cs with _ | ⟨c3, _ | ⟨c4, cs⟩⟩ <;> simp [matchMarks, h]

theorem matchMarks_f4 (c0 c1 c2 c3 : Char) (cs : List Char) (h : ¬ c3 = 'k') :
    matchMarks (c0 :: c1 :: c2 :: c3 :: cs) = false := by
  rcases cs with _ | ⟨c4, cs⟩ <;> simp [matchMarks, h]

theorem matchMarks_f5 (c0 c1 c2 c3 c4 : Char) (cs : List Char) (h : ¬ c4 = 's') :
    matchMarks (c0 :: c1 :: c2 :: c3 :: c4 :: cs) = false := by
  simp [matchMarks, h]

theorem matchCIAns_head_false (c : Char) (cs : List Char) (h : ¬ lowerC c = 'a') :
    matchCIAns (c :: cs) = false := by
  rcases cs with _ | ⟨c1, _ | ⟨c2, _ | ⟨c3, _ | ⟨c4, _ | ⟨c5, cs⟩⟩⟩⟩⟩ <;> simp [matchCIAns, h]

theorem matchCIAns_elim (c0 c1 c2 c3 c4 c5 : Char) (rest : List Char)
    (h : matchCIAns (c0 :: c1 :: c2 :: c3 :: c4 :: c5 :: rest) = true) :
    lowerC c0 = 'a' ∧ lowerC c1 = 'n' ∧ lowerC c2 = 's' ∧ lowerC c3 = 'w' ∧
      lowerC c4 = 'e' ∧ lowerC c5 = 'r' := by
  simp [matchCIAns] at h
  tauto

theorem matchMarks_elim (c0 c1 c2 c3 c4 : Char) (rest : List Char)
    (h : matchMarks (c0 :: c1 :: c2 :: c3 :: c4 :: rest) = true) :
    c0 = 'M' ∧ c1 = 'a' ∧ c2 = 'r' ∧ c3 = 'k' ∧ c4 = 's' := by
  simp [matchMarks] at h
  tauto

theorem matchCIAns_head_eq (c : Char) (cs : List Char) (h : matchCIAns (c :: cs) = true) :
    lowerC c = 'a' := by
  rcases cs with _ | ⟨c1, _ | ⟨c2, _ | ⟨c3, _ | ⟨c4, _ | ⟨c5, cs⟩⟩⟩⟩⟩ <;>
    simp [matchCIAns] at h <;> tauto

theorem specAns_copy_five (c0 c1 c2 c3 c4 c5 : Char) (rest : List Char)
    (h : matchCIAns (c0 :: c1 :: c2 :: c3 :: c4 :: c5 :: rest) = true) :
    specAns (c1 :: c2 :: c3 :: c4 :: c5 :: rest) =
      c1 :: c2 :: c3 :: c4 :: c5 :: specAns rest := by
  obtain ⟨-, h1, h2, h3, h4, h5⟩ := matchCIAns_elim c0 c1 c2 c3 c4 c5 rest h
  rw [specAns, matchCIAns_head_false c1 _ (by rw [h1]; decide)]
  rw [specAns, matchCIAns_head_false c2 _ (by rw [h2]; decide)]
  rw [specAns, matchCIAns_head_false c3 _ (by rw [h3]; decide)]
  rw [specAns, matchCIAns_head_false c4 _ (by rw [h4]; decide)]
  rw [specAns, matchCIAns_head_false c5 _ (by rw [h5]; decide)]
  rfl

theorem specMarks_copy_four (c0 c1 c2 c3 c4 : Char) (rest : List Char)
    (h : matchMarks (c0 :: c1 :: c2 :: c3 :: c4 :: rest) = true) :
    specMarks (c1 :: c2 :: c3 :: c4 :: rest) = c1 :: c2 :: c3 :: c4 :: specMarks rest := by
  obtain ⟨-, h1, h2, h3, h4⟩ := matchMarks_elim c0 c1 c2 c3 c4 rest h
  rw [specMarks, matchMarks_f1 c1 _ (by rw [h1]; decide)]
  rw [specMarks, matchMarks_f1 c2 _ (by rw [h2]; decide)]
  rw [specMarks, matchMarks_f1 c3 _ (by rw [h3]; decide)]
  rw [specMarks, matchMarks_f1 c4 _ (by rw [h4]; decide)]
  rfl

theorem subAns_eq_specAns_bounded :
    ∀ (n : Nat) (l : List Char), l.length ≤ n → subAns l = specAns l := by
  intro n
  induction n with
  | zero =>
    intro l hl
    rw [Nat.le_zero, List.length_eq_zero] at hl
    subst hl
    rfl
  | succ n ih =>
    intro l hl
    rcases l with _ | ⟨c0, _ | ⟨c1, _ | ⟨c2, _ | ⟨c3, _ | ⟨c4, _ | ⟨c5, rest⟩⟩⟩⟩⟩⟩
    · rfl
    · simp [subAns, specAns, matchCIAns]
    · simp [subAns, specAns, matchCIAns]
    · simp [subAns, specAns, matchCIAns]
    · simp [subAns, specAns, matchCIAns]
    · simp [subAns, specAns, matchCIAns]
    · by_cases hm : matchCIAns (c0 :: c1 :: c2 :: c3 :: c4 :: c5 :: rest) = true
      · rw [subAns, if_pos hm, specAns, if_pos hm,
          specAns_copy_five c0 c1 c2 c3 c4 c5 rest hm,
          ih rest (by simp at hl; omega)]
      · rw [Bool.not_eq_true] at hm
        rw [subAns, hm, specAns, hm]
        simp only [Bool.false_eq_true, if_false, List.nil_append]
        rw [ih (c1 :: c2 :: c3 :: c4 :: c5 :: rest) (by simp at hl ⊢; omega)]

theorem subAns_eq_specAns (l : List Char) : subAns l = specAns l :=
  subAns_eq_specAns_bounded l.length l (Nat.le_refl _)

theorem subMarks_eq_specMarks_bounded :
    ∀ (n : Nat) (l : List Char), l.length ≤ n → subMarks l = specMarks l := by
  intro n
  induction n with
  | zero =>
    intro l hl
    rw [Nat.le_zero, List.length_eq_zero] at hl
    subst hl
    rfl
  | succ n ih =>
    intro l hl
    rcases l with _ | ⟨c0, _ | ⟨c1, _ | ⟨c2, _ | ⟨c3, _ | ⟨c4, rest⟩⟩⟩⟩⟩
    · rfl
    · simp [subMarks, specMarks, matchMarks]
    · simp [subMarks, specMarks, matchMarks]
    · simp [subMarks, specMarks, matchMarks]
    · simp [subMarks, specMarks, matchMarks]
    · by_cases hm : matchMarks (c0 :: c1 :: c2 :: c3 :: c4 :: rest) = true
      · rw [subMarks, if_pos hm, specMarks, if_pos hm,
          specMarks_copy_four c0 c1 c2 c3 c4 rest hm,
          ih rest (by simp at hl; omega)]
      · rw [Bool.not_eq_true] at hm
        rw [subMarks, hm, specMarks, hm]
        simp only [Bool.false_eq_true, if_false, List.nil_append]
        rw [ih (c1 :: c2 :: c3 :: c4 :: rest) (by simp at hl ⊢; omega)]

theorem subMarks_eq_specMarks (l : List Char) : subMarks l = specMarks l :=
  subMarks_eq_specMarks_bounded l.length l (Nat.le_refl _)

theorem specMarks_brTag (X : List Char) :
    specMarks ('<' :: 'b' :: 'r' :: '/' :: '>' :: X) =
      '<' :: 'b' :: 'r' :: '/' :: '>' :: specMarks X := by
  rw [specMarks, matchMarks_f1 _ _ (by decide)]
  rw [specMarks, matchMarks_f1 _ _ (by decide)]
  rw [specMarks, matchMarks_f1 _ _ (by decide)]
  rw [specMarks, matchMarks_f1 _ _ (by decide)]
  rw [specMarks, matchMarks_f1 _ _ (by decide)]
  simp

theorem matchMarks_specAns (c : Char) (cs : List Char) :
    matchMarks (c :: specAns cs) = matchMarks (c :: cs) := by
  by_cases hc : c = 'M'
  case neg => rw [matchMarks_f1 c _ hc, matchMarks_f1 c _ hc]
  subst hc
  rcases cs with _ | ⟨a1, cs1⟩
  · rfl
  by_cases hA1 : matchCIAns (a1 :: cs1) = true
  · rw [specAns, if_pos hA1]
    rw [show brTag ++ a1 :: specAns cs1 =
      '<' :: 'b' :: 'r' :: '/' :: '>' :: a1 :: specAns cs1 from rfl]
    rw [matchMarks_f2 _ _ _ (by decide)]
    by_cases h1a : a1 = 'a'
    · subst h1a
      rcases cs1 with _ | ⟨b2, cs2⟩
      · rfl
      · have hb2 : lowerC b2 = 'n' := by
          rcases cs2 with _ | ⟨x3, _ | ⟨x4, _ | ⟨x5, _ | ⟨x6, rest⟩⟩⟩⟩ <;>
            simp [matchCIAns] at hA1 <;> tauto
        rw [matchMarks_f3 _ _ _ _ (fun he => by rw [he] at hb2; exact absurd hb2 (by decide))]
    · rw [matchMarks_f2 _ _ _ h1a]
  · rw [specAns, if_neg hA1]
    simp only [List.nil_append]
    by_cases h1a : a1 = 'a'
    case neg => rw [matchMarks_f2 _ _ _ h1a, matchMarks_f2 _ _ _ h1a]
    subst h1a
    rcases cs1 with _ | ⟨a2, cs2⟩
    · rfl
    by_cases hA2 : matchCIAns (a2 :: cs2) = true
    · rw [specAns, if_pos hA2]
      rw [show brTag ++ a2 :: specAns cs2 =
        '<' :: 'b' :: 'r' :: '/' :: '>' :: a2 :: specAns cs2 from rfl]
      rw [matchMarks_f3 _ _ _ _ (by decide)]
      have ha2 := matchCIAns_head_eq a2 cs2 hA2
      rw [matchMarks_f3 _ _ _ _ (fun he => by rw [he] at ha2; exact absurd ha2 (by decide))]
    · rw [specAns, if_neg hA2]
      simp only [List.nil_append]
      by_cases h2r : a2 = 'r'
      case neg => rw [matchMarks_f3 _ _ _ _ h2r, matchMarks_f3 _ _ _ _ h2r]
      subst h2r
      rcases cs2 with _ | ⟨a3, cs3⟩
      · rfl
      by_cases hA3 : matchCIAns (a3 :: cs3) = true
      · rw [specAns, if_pos hA3]
        rw [show brTag ++ a3 :: specAns cs3 =
          '<' :: 'b' :: 'r' :: '/' :: '>' :: a3 :: specAns cs3 from rfl]
        rw [matchMarks_f4 _ _ _ _ _ (by decide)]
        have ha3 := matchCIAns_head_eq a3 cs3 hA3
        rw [matchMarks_f4 _ _ _ _ _ (fun he => by rw [he] at ha3; exact absurd ha3 (by decide))]
      · rw [specAns, if_neg hA3]
        simp only [List.nil_append]
        by_cases h3k : a3 = 'k'
        case neg => rw [matchMarks_f4 _ _ _ _ _ h3k, matchMarks_f4 _ _ _ _ _ h3k]
        subst h3k
        rcases cs3 with _ | ⟨a4, cs4⟩
        · rfl
        by_cases hA4 : matchCIAns (a4 :: cs4) = true
        · rw [specAns, if_pos hA4]
          rw [show brTag ++ a4 :: specAns cs4 =
            '<' :: 'b' :: 'r' :: '/' :: '>' :: a4 :: specAns cs4 from rfl]
          rw [matchMarks_f5 _ _ _ _ _ _ (by decide)]
          have ha4 := matchCIAns_head_eq a4 cs4 hA4
          rw [matchMarks_f5 _ _ _ _ _ _ (fun he => by rw [he] at ha4; exact absurd ha4 (by decide))]
        · rw [specAns, if_neg hA4]
          simp only [List.nil_append]
          by_cases h4s : a4 = 's'
          case neg => rw [matchMarks_f5 _ _ _ _ _ _ h4s, matchMarks_f5 _ _ _ _ _ _ h4s]
          subst h4s
          simp [matchMarks]

theorem specMarks_specAns (l : List Char) :
    specMarks (specAns l) = transformSpecList l := by
  induction l with
  | nil => rfl
  | cons c cs ih =>
    by_cases hA : matchCIAns (c :: cs) = true
    · rw [specAns, if_pos hA]
      rw [show brTag ++ c :: specAns cs =
        '<' :: 'b' :: 'r' :: '/' :: '>' :: c :: specAns cs from rfl]
      rw [specMarks_brTag]
      have hca := matchCIAns_head_eq c cs hA
      have hc : ¬ c = 'M' := fun he => by rw [he] at hca; exact absurd hca (by decide)
      rw [specMarks, matchMarks_f1 c _ hc]
      simp only [Bool.false_eq_true, if_false, List.nil_append]
      rw [ih, transformSpecList, hA]
      simp [brTag]
    · rw [specAns, if_neg hA]
      simp only [List.nil_append]
      rw [specMarks, matchMarks_specAns c cs]
      rw [Bool.not_eq_true] at hA
      by_cases hM : matchMarks (c :: cs) = true
      · rw [if_pos hM, ih, transformSpecList, hA, hM]
        simp [brTag]
      · rw [Bool.not_eq_true] at hM
        rw [hM]
        simp only [Bool.false_eq_true, if_false, List.nil_append]
        rw [ih, transformSpecList, hA, hM]
        simp

/-- C7: In the Markdown-to-PDF conversion, the HTML text transform (the two
sequential `re.sub` substitutions) inserts a line break `<br/>` before every
case-insensitive occurrence of `answer` and before every case-sensitive
occurrence of `Marks`, and changes nothing else in the text: it equals the
per-position transform that walks the text, emits `<br/>` exactly at the
positions where one of the two occurrences starts, and copies every
character unchanged. -/
theorem transform_inserts_breaks_before_occurrences_only (html : String) :
    convertTransform html = transformSpec html := by
  rw [convertTransform, transformSpec, subAns_eq_specAns, subMarks_eq_specMarks,
    specMarks_specAns]
